import Mathlib

/-!
Verification development for the signaling orchestration client in
src/app/mediasoupClient.ts (class MediasoupClient).

The TypeScript class is shallowly embedded as pure Lean functions over an
explicit state record: stateful methods become functions of the form
ClientState to ClientState paired with their observable outputs (outbound
signaling messages, locally emitted events, close calls); fallible methods
return Except String; the media engine (mediasoup-client Device, Transport)
and the server replies awaited by a method are supplied through explicit
environment records; JavaScript Map objects become insertion-ordered
association lists.  The await points inside handleRtpCapabilities and the
promise chain forming the consume queue are modelled explicitly where a
claim depends on them.
-/

namespace MS

/-- State of the mediasoup Device seen through the `device` field.  In the
source, handleRtpCapabilities assigns `this.device = new Device()` before
awaiting `device.load`, so the field is already set while the load is still
in flight; the two constructors distinguish those phases. -/
inductive DeviceState
  | loading
  | loaded
  deriving Repr, DecidableEq

/-- A mediasoup-client Transport handle, reduced to an identity and the
closed flag toggled by `transport.close()`. -/
structure Transport where
  tid : Nat
  closed : Bool
  deriving Repr, DecidableEq

/-- A Producer handle stored in `this.producers`. -/
structure Producer where
  prodId : String
  closed : Bool
  deriving Repr, DecidableEq

/-- A Consumer handle stored in `this.consumers`.  `transportKey` records
which consumer transport (keyed by remote participant id) the engine
created it on; the engine closes it when that transport closes. -/
structure Consumer where
  consId : String
  transportKey : String
  closed : Bool
  track : Nat
  deriving Repr, DecidableEq

/-- One entry of `this.pendingExistingProducers`. -/
structure PendingProducer where
  participantId : String
  producerId : String
  kind : String
  deriving Repr, DecidableEq

/-- Lookup in an insertion-ordered association list (JavaScript Map.get). -/
def assocGet {α : Type} (m : List (String × α)) (k : String) : Option α :=
  match m with
  | [] => none
  | (k2, v) :: t => if k2 = k then some v else assocGet t k

/-- JavaScript Map.set: replace in place if the key exists, else append. -/
def assocSet {α : Type} (m : List (String × α)) (k : String) (v : α) :
    List (String × α) :=
  match m with
  | [] => [(k, v)]
  | (k2, v2) :: t => if k2 = k then (k, v) :: t else (k2, v2) :: assocSet t k v

/-- JavaScript Map.delete: drop the (unique) entry for the key. -/
def assocDelete {α : Type} (m : List (String × α)) (k : String) :
    List (String × α) :=
  match m with
  | [] => []
  | (k2, v2) :: t => if k2 = k then t else (k2, v2) :: assocDelete t k

/-- The mutable fields of MediasoupClient that the verified claims touch. -/
structure ClientState where
  device : Option DeviceState
  producerTransport : Option Transport
  consumerTransports : List (String × Transport)
  producers : List (String × Producer)
  consumers : List (String × Consumer)
  pendingExistingProducers : List PendingProducer
  deriving Repr, DecidableEq

/-- Field values at construction time. -/
def initialState : ClientState :=
  { device := none
    producerTransport := none
    consumerTransports := []
    producers := []
    consumers := []
    pendingExistingProducers := [] }

/-- Events delivered to the application through `emit`. -/
inductive Emitted
  | joined
  | newProducer (p : PendingProducer)
  | participantLeft (pid : String)
  deriving Repr, DecidableEq

/-- Outbound signaling messages produced through `send`. -/
inductive OutMsg
  | createProducerTransport
  | createConsumerTransport
  | consume (producerParticipantId producerId : String)
  deriving Repr, DecidableEq

/-- Close calls observable during teardown. -/
inductive CloseEv
  | producerClose (id : String)
  | consumerClose (id : String)
  | producerTransportClose (tid : Nat)
  | consumerTransportClose (tid : Nat)
  | wsClose
  deriving Repr, DecidableEq

/-- The "joined" branch of setupWebSocket: emit the joined event, and when
`data.existingProducers` is present and non-empty, ASSIGN it to
`this.pendingExistingProducers` (the source overwrites the field, it does
not append to it). -/
def handleJoined (s : ClientState)
    (existingProducers : Option (List PendingProducer)) :
    ClientState × List Emitted :=
  match existingProducers with
  | some ps =>
    if ps.length > 0 then
      ({ s with pendingExistingProducers := ps }, [Emitted.joined])
    else (s, [Emitted.joined])
  | none => (s, [Emitted.joined])

/-- The first half of handleRtpCapabilities, up to the await of
`device.load`: `this.device = new Device()` has run, the load has not yet
completed. -/
def rtpCapabilitiesReceived (s : ClientState) : ClientState :=
  { s with device := some DeviceState.loading }

/-- The second half of handleRtpCapabilities, after `device.load` resolves:
if the pending buffer is non-empty, copy it, clear the field, and emit one
newProducer event per entry in order. -/
def deviceLoadCompleted (s : ClientState) : ClientState × List Emitted :=
  let s1 := { s with device := some DeviceState.loaded }
  if s1.pendingExistingProducers.length > 0 then
    let producers := s1.pendingExistingProducers
    ({ s1 with pendingExistingProducers := [] },
      producers.map Emitted.newProducer)
  else (s1, [])

/-- The whole handleRtpCapabilities handler, both halves run to
completion. -/
def handleRtpCapabilities (s : ClientState) : ClientState × List Emitted :=
  deviceLoadCompleted (rtpCapabilitiesReceived s)

/-- Engine and server responses consumed by one produceTrack call: the
send transport the engine builds from the `producerTransportCreated` reply,
and the server-assigned producer id carried by `produced`. -/
structure ProduceEnv where
  newTransport : Transport
  producerId : String
  deriving Repr, DecidableEq

/-- produceTrack: throws "Device not initialized" when `this.device` is
unset (a mere truthiness test, so a loading device passes); creates the
producer transport only when the field is unset, reusing whatever transport
the field holds otherwise; registers the producer under the server id.
The value carried by `Except.ok` is the transport the produce call ran on.
The connect/produce handshake messages driven by transport events are not
modelled; the claims under verification only observe
`createProducerTransport`. -/
def produceTrack (s : ClientState) (env : ProduceEnv) :
    ClientState × List OutMsg × Except String Transport :=
  match s.device with
  | none => (s, [], Except.error "Device not initialized")
  | some _ =>
    let created :=
      match s.producerTransport with
      | some _ => (s, ([] : List OutMsg))
      | none =>
        ({ s with producerTransport := some env.newTransport },
          [OutMsg.createProducerTransport])
    let s1 := created.1
    let msgs1 := created.2
    match s1.producerTransport with
    | none => (s1, msgs1, Except.error "Producer transport not created")
    | some tr =>
      let producer : Producer := { prodId := env.producerId, closed := false }
      ({ s1 with producers := assocSet s1.producers env.producerId producer },
        msgs1, Except.ok tr)

/-- Engine and server responses consumed by one consume negotiation: the
recv transport built from `consumerTransportCreated`, the server-assigned
consumer id carried by `consumed`, and the outcome of the engine's
`consumerTransport.consume` call (a track on success). -/
structure ConsumeEnv where
  newTransport : Transport
  consumedId : String
  engineConsume : Except String Nat
  deriving Repr

/-- The private _consumeTrack: throws "Device not initialized" when the
device field is unset; memoizes the consumer transport by producer
participant id (createConsumerTransport is requested only on a miss);
sends the consume request; on the `consumed` reply asks the engine to
consume — an engine failure there is caught and resolves null, a success
registers the Consumer under the server id and resolves its track. -/
def _consumeTrack (s : ClientState)
    (producerParticipantId producerId : String) (env : ConsumeEnv) :
    ClientState × List OutMsg × Except String (Option Nat) :=
  match s.device with
  | none => (s, [], Except.error "Device not initialized")
  | some _ =>
    let transportKey := producerParticipantId
    let step :=
      match assocGet s.consumerTransports transportKey with
      | some tr => (s, ([] : List OutMsg), tr)
      | none =>
        ({ s with consumerTransports :=
              assocSet s.consumerTransports transportKey env.newTransport },
          [OutMsg.createConsumerTransport], env.newTransport)
    let s1 := step.1
    let msgs := step.2.1 ++ [OutMsg.consume producerParticipantId producerId]
    match env.engineConsume with
    | Except.error _ => (s1, msgs, Except.ok none)
    | Except.ok track =>
      let consumer : Consumer :=
        { consId := env.consumedId, transportKey := transportKey,
          closed := false, track := track }
      ({ s1 with consumers := assocSet s1.consumers env.consumedId consumer },
        msgs, Except.ok (some track))

/-- The public consumeTrack as observed by one caller once its turn in the
queue arrives: the promise chain's trailing `.catch` turns any rejection of
_consumeTrack into a resolved null. -/
def consumeTrack (s : ClientState)
    (producerParticipantId producerId : String) (env : ConsumeEnv) :
    ClientState × List OutMsg × Except String (Option Nat) :=
  match _consumeTrack s producerParticipantId producerId env with
  | (s1, msgs, Except.error _) => (s1, msgs, Except.ok none)
  | r => r

/-- One queued consume call: its arguments plus the environment its
negotiation will see. -/
structure ConsumeReq where
  producerParticipantId : String
  producerId : String
  env : ConsumeEnv
  deriving Repr

/-- The consume queue drained in order: each entry runs _consumeTrack to
completion on the state left by its predecessor, a rejection is mapped to
null by the chain's catch, and the next entry then runs regardless. -/
def runConsumeQueue (s : ClientState) (reqs : List ConsumeReq) :
    ClientState × List (Option Nat) :=
  match reqs with
  | [] => (s, [])
  | r :: rest =>
    let step := consumeTrack s r.producerParticipantId r.producerId r.env
    let t :=
      match step.2.2 with
      | Except.ok v => v
      | Except.error _ => none
    let next := runConsumeQueue step.1 rest
    (next.1, t :: next.2)

/-- Engine effect of closing the consumer transport keyed by `key`: every
Consumer created on it becomes closed.  The source never touches the
`consumers` map here; the entries stay in the map. -/
def closeConsumersOf (consumers : List (String × Consumer)) (key : String) :
    List (String × Consumer) :=
  consumers.map (fun e =>
    (e.1, if e.2.transportKey = key then { e.2 with closed := true } else e.2))

/-- handleParticipantLeft: when a consumer transport exists for the
participant, close it (the engine then closes its Consumers) and delete it
from the transport map; then emit the participantLeft event.  The
`consumers` map is not cleaned up. -/
def handleParticipantLeft (s : ClientState) (participantId : String) :
    ClientState × List Emitted :=
  match assocGet s.consumerTransports participantId with
  | some _ =>
    ({ s with
        consumerTransports := assocDelete s.consumerTransports participantId,
        consumers := closeConsumersOf s.consumers participantId },
      [Emitted.participantLeft participantId])
  | none => (s, [Emitted.participantLeft participantId])

/-- disconnect: close every producer and clear the map, close every
consumer and clear the map, close the producer transport (the field keeps
referencing the now-closed transport), close every consumer transport and
clear the map, close the socket.  The `device` field is untouched. -/
def disconnect (s : ClientState) : ClientState × List CloseEv :=
  let producerCloses := s.producers.map (fun e => CloseEv.producerClose e.1)
  let consumerCloses := s.consumers.map (fun e => CloseEv.consumerClose e.1)
  let producerTransportCloses :=
    match s.producerTransport with
    | some tr => [CloseEv.producerTransportClose tr.tid]
    | none => []
  let consumerTransportCloses :=
    s.consumerTransports.map (fun e => CloseEv.consumerTransportClose e.2.tid)
  ({ s with
      producers := []
      consumers := []
      consumerTransports := []
      producerTransport :=
        s.producerTransport.map (fun tr => { tr with closed := true }) },
    producerCloses ++ consumerCloses ++ producerTransportCloses ++
      consumerTransportCloses ++ [CloseEv.wsClose])

/-- The operations that mutate a MediasoupClient instance, for stating
invariants over every reachable state. -/
inductive ClientOp
  | joined (existingProducers : Option (List PendingProducer))
  | rtpCapabilities
  | produce (env : ProduceEnv)
  | consume (producerParticipantId producerId : String) (env : ConsumeEnv)
  | participantLeft (participantId : String)
  | disconnectOp
  deriving Repr

/-- Apply one operation, keeping only the state. -/
def runOp (s : ClientState) (op : ClientOp) : ClientState :=
  match op with
  | ClientOp.joined ps => (handleJoined s ps).1
  | ClientOp.rtpCapabilities => (handleRtpCapabilities s).1
  | ClientOp.produce env => (produceTrack s env).1
  | ClientOp.consume ppid pid env => (consumeTrack s ppid pid env).1
  | ClientOp.participantLeft pid => (handleParticipantLeft s pid).1
  | ClientOp.disconnectOp => (disconnect s).1

/-- Apply a whole history of operations from the initial state. -/
def runOps (s : ClientState) (ops : List ClientOp) : ClientState :=
  match ops with
  | [] => s
  | op :: rest => runOps (runOp s op) rest

/-- One handler registration on the event bus.  `hid` is the identity of
the registered function object (unique per registration, since `once`
wraps its callback in a fresh closure); `selfRemoving` is true for the
wrapper installed by `once`, and more generally for a handler whose body
ends by unsubscribing itself via `off`. -/
structure Handler where
  hid : Nat
  selfRemoving : Bool
  deriving Repr, DecidableEq

/-- The handler array stored for one event type. -/
abbrev HandlerList := List Handler

/-- The eventHandlers map: event type to handler array. -/
abbrev Bus := List (String × HandlerList)

/-- Array.prototype.splice driven by indexOf: remove the first occurrence
of the handler identity, or leave the array unchanged when absent. -/
def removeFirstHandler (hs : HandlerList) (hid : Nat) : HandlerList :=
  match hs with
  | [] => []
  | h :: t => if h.hid = hid then t else h :: removeFirstHandler t hid

/-- The body of `emit`: handlers.forEach(handler => handler(...)).
JavaScript forEach fixes the iteration bound to the array length on
entry, then visits ascending indices of the LIVE array, skipping indices
that no longer exist.  Firing a selfRemoving handler splices it out of
the array before the next index is visited.  `gas` is the number of
iterations left (the fixed bound minus the current index `k`).  Returns
the final array and the handlers fired, in firing order. -/
def emitLoopAux (hs : HandlerList) (k gas : Nat) : HandlerList × List Handler :=
  match gas with
  | 0 => (hs, [])
  | g + 1 =>
    match hs[k]? with
    | none => emitLoopAux hs (k + 1) g
    | some hd =>
      let hs1 := if hd.selfRemoving then removeFirstHandler hs hd.hid else hs
      let r := emitLoopAux hs1 (k + 1) g
      (r.1, hd :: r.2)

/-- The `on` method: create the array on first use, then push. -/
def onEvent (bus : Bus) (event : String) (h : Handler) : Bus :=
  match assocGet bus event with
  | none => assocSet bus event [h]
  | some hs => assocSet bus event (hs ++ [h])

/-- The `once` method: register a self-removing wrapper around the
callback. -/
def onceEvent (bus : Bus) (event : String) (h : Handler) : Bus :=
  onEvent bus event { h with selfRemoving := true }

/-- The `off` method: splice out the first registration with this
identity, if any. -/
def offEvent (bus : Bus) (event : String) (hid : Nat) : Bus :=
  match assocGet bus event with
  | none => bus
  | some hs => assocSet bus event (removeFirstHandler hs hid)

/-- The `emit` method: run the forEach loop over the handlers registered
for the event, if any (the loop starts at index 0 with the array length
as its iteration bound).  Other event types are untouched. -/
def emit (bus : Bus) (event : String) : Bus × List Handler :=
  match assocGet bus event with
  | none => (bus, [])
  | some hs =>
    let r := emitLoopAux hs 0 hs.length
    (assocSet bus event r.1, r.2)

/-- Reference recursion computing, for a handler array with distinct
identities, the final array and the fired handlers of one emit: firing a
self-removing handler shifts the array under forEach so the handler
immediately after it is skipped (left registered but not fired). -/
def emitSpecAux : HandlerList → HandlerList × List Handler
  | [] => ([], [])
  | h :: t =>
    if h.selfRemoving then
      match t with
      | [] => ([], [h])
      | h2 :: t2 =>
        let r := emitSpecAux t2
        (h2 :: r.1, h :: r.2)
    else
      let r := emitSpecAux t
      (h :: r.1, h :: r.2)

/-- State of the consume queue built by consumeTrack reassigning
`this.consumeQueue = this.consumeQueue.then(...).catch(() => null)`.
Queue entries are numbered in call order; `queued` holds calls whose
negotiation has not started, `inflight` those started and not yet settled,
`done` the settled ones with their outcome (false = the negotiation
rejected and the catch resolved null). -/
structure QState where
  queued : List Nat
  inflight : List Nat
  done : List (Nat × Bool)
  nextId : Nat
  deriving Repr, DecidableEq

/-- The queue before any consumeTrack call: `Promise.resolve(null)`. -/
def QState.init : QState := { queued := [], inflight := [], done := [], nextId := 0 }

/-- Observable queue events. -/
inductive QEvent
  | call (id : Nat)
  | start (id : Nat)
  | settle (id : Nat) (ok : Bool)
  deriving Repr, DecidableEq

/-- Small-step semantics of the promise chain.  `call` is a consumeTrack
invocation: it synchronously chains a new continuation onto the tail of
the queue.  `start` begins the negotiation of the oldest queued call; the
premise `inflight = []` is exactly the `.then` sequencing — a continuation
runs only once its predecessor promise has settled.  `settle` ends the
inflight negotiation with success or failure; the `.catch (fun _ => null)`
keeps the chain resolved either way, so `start` of the next entry is
enabled again regardless of `ok`. -/
inductive QStep : QState → QEvent → QState → Prop
  | call (s : QState) :
      QStep s (QEvent.call s.nextId)
        { s with queued := s.queued ++ [s.nextId], nextId := s.nextId + 1 }
  | start (s : QState) (id : Nat) (rest : List Nat)
      (hIdle : s.inflight = [])
      (hQ : s.queued = id :: rest) :
      QStep s (QEvent.start id) { s with queued := rest, inflight := [id] }
  | settle (s : QState) (id : Nat) (ok : Bool)
      (hIn : s.inflight = [id]) :
      QStep s (QEvent.settle id ok)
        { s with inflight := [], done := s.done ++ [(id, ok)] }

/-- Reachability of a queue state from the empty queue. -/
inductive QReach : QState → Prop
  | init : QReach QState.init
  | step {s e s2} : QReach s → QStep s e s2 → QReach s2

/-- A connected client after disconnect, used as a concrete instance for
the frame-effect theorem about disconnect. -/
def c10State : ClientState :=
  { initialState with
    device := some DeviceState.loaded
    producerTransport := some { tid := 3, closed := false } }

/-- A client with one consumer transport for participant "A" owning two
registered Consumers, used as a concrete instance for the participantLeft
claims. -/
def c5State : ClientState :=
  { initialState with
    device := some DeviceState.loaded
    consumerTransports := [("A", { tid := 1, closed := false })]
    consumers :=
      [("c1", { consId := "c1", transportKey := "A", closed := false,
                track := 10 }),
       ("c2", { consId := "c2", transportKey := "A", closed := false,
                track := 11 })] }

/-- A bus with two persistent handlers for "consumed" and one once-wrapper
for "produced", used as a concrete instance for the bus theorems. -/
def c8Bus : Bus :=
  [("consumed", [{ hid := 1, selfRemoving := false },
                 { hid := 2, selfRemoving := false }]),
   ("produced", [{ hid := 3, selfRemoving := true }])]

/-! ### Association list lemmas -/

theorem assocGet_assocSet_self {α : Type} (m : List (String × α)) (k : String)
    (v : α) : assocGet (assocSet m k v) k = some v := by
  induction m with
  | nil => simp [assocSet, assocGet]
  | cons e t ih =>
    obtain ⟨k2, v2⟩ := e
    by_cases h : k2 = k <;> simp [assocSet, assocGet, h, ih]

theorem assocGet_assocSet_ne {α : Type} (m : List (String × α)) (k k2 : String)
    (v : α) (h : k ≠ k2) : assocGet (assocSet m k v) k2 = assocGet m k2 := by
  induction m with
  | nil => simp [assocSet, assocGet, h]
  | cons e t ih =>
    obtain ⟨k3, v3⟩ := e
    by_cases h3 : k3 = k
    · subst h3
      simp [assocSet, assocGet, h]
    · by_cases h4 : k3 = k2
      · subst h4
        simp [assocSet, assocGet, h3]
      · simp [assocSet, assocGet, h3, h4, ih]

theorem mem_keys_assocSet {α : Type} (m : List (String × α)) (k x : String)
    (v : α) (hx : x ∈ (assocSet m k v).map Prod.fst) :
    x = k ∨ x ∈ m.map Prod.fst := by
  induction m with
  | nil => simpa [assocSet] using hx
  | cons e t ih =>
    obtain ⟨k2, v2⟩ := e
    by_cases h : k2 = k
    · subst h
      simpa [assocSet] using hx
    · simp only [assocSet, if_neg h, List.map_cons, List.mem_cons] at hx
      rcases hx with hx | hx
      · exact Or.inr (by simp [hx])
      · rcases ih hx with hx | hx
        · exact Or.inl hx
        · exact Or.inr (by simp [hx])

theorem nodupKeys_assocSet {α : Type} (m : List (String × α)) (k : String)
    (v : α) (h : (m.map Prod.fst).Nodup) :
    ((assocSet m k v).map Prod.fst).Nodup := by
  induction m with
  | nil => simp [assocSet]
  | cons e t ih =>
    obtain ⟨k2, v2⟩ := e
    simp only [List.map_cons, List.nodup_cons] at h
    by_cases hk : k2 = k
    · subst hk
      simpa [assocSet] using h
    · rw [show assocSet ((k2, v2) :: t) k v = (k2, v2) :: assocSet t k v from by
        simp [assocSet, hk]]
      simp only [List.map_cons, List.nodup_cons]
      refine ⟨fun hmem => ?_, ih h.2⟩
      rcases mem_keys_assocSet t k k2 v hmem with h1 | h1
      · exact hk h1
      · exact h.1 h1

theorem keys_assocDelete_sublist {α : Type} (m : List (String × α))
    (k : String) : ((assocDelete m k).map Prod.fst).Sublist (m.map Prod.fst) := by
  induction m with
  | nil => simp [assocDelete]
  | cons e t ih =>
    obtain ⟨k2, v2⟩ := e
    by_cases h : k2 = k
    · simp only [assocDelete, if_pos h]
      exact List.Sublist.cons k2 (List.Sublist.refl _)
    · simpa [assocDelete, h] using List.Sublist.cons₂ k2 ih

theorem nodupKeys_assocDelete {α : Type} (m : List (String × α)) (k : String)
    (h : (m.map Prod.fst).Nodup) :
    ((assocDelete m k).map Prod.fst).Nodup :=
  (keys_assocDelete_sublist m k).nodup h

theorem assocGet_eq_none_of_not_mem {α : Type} (m : List (String × α))
    (k : String) (h : k ∉ m.map Prod.fst) : assocGet m k = none := by
  induction m with
  | nil => rfl
  | cons e t ih =>
    obtain ⟨k2, v2⟩ := e
    simp only [List.map_cons, List.mem_cons] at h
    push_neg at h
    have hne : ¬k2 = k := fun hk => h.1 hk.symm
    simp [assocGet, hne, ih h.2]

theorem assocGet_assocDelete_self {α : Type} (m : List (String × α))
    (k : String) (h : (m.map Prod.fst).Nodup) :
    assocGet (assocDelete m k) k = none := by
  induction m with
  | nil => rfl
  | cons e t ih =>
    obtain ⟨k2, v2⟩ := e
    simp only [List.map_cons, List.nodup_cons] at h
    by_cases hk : k2 = k
    · subst hk
      simpa [assocDelete] using assocGet_eq_none_of_not_mem t k2 h.1
    · simp [assocDelete, assocGet, hk, ih h.2]

/-! ### Claim C2: the Ready transition flushes the pending-producer buffer -/

/-- C2: when handleRtpCapabilities completes with N buffered
pending-producer announcements, exactly the buffered announcements are
emitted as newProducer notifications, in their original order; the buffer
is empty afterwards; and running the handler a second time on the
resulting (empty-buffer) state emits no notifications. -/
theorem ready_flush_emits_buffer_in_order_then_empties (s : ClientState) :
    (handleRtpCapabilities s).2
        = s.pendingExistingProducers.map Emitted.newProducer ∧
    (handleRtpCapabilities s).2.length
        = s.pendingExistingProducers.length ∧
    (handleRtpCapabilities s).1.pendingExistingProducers = [] ∧
    (handleRtpCapabilities (handleRtpCapabilities s).1).2 = [] := by
  by_cases h : s.pendingExistingProducers.length > 0
  · simp [handleRtpCapabilities, deviceLoadCompleted, rtpCapabilitiesReceived, h]
  · have hempty : s.pendingExistingProducers = [] := by
      simpa using Nat.le_antisymm (Nat.not_lt.mp h) (Nat.zero_le _)
    simp [handleRtpCapabilities, deviceLoadCompleted, rtpCapabilitiesReceived,
      hempty]

/-! ### Claim C9: buffering of existing-producer announcements -/

/-- C9 (counterexample): the claim says successive "existing producers"
announcements accumulate in the buffer in arrival order.  In the source
the joined branch assigns `this.pendingExistingProducers =
data.existingProducers`: with one announcement already buffered, a second
joined message leaves only the second message's entries, not both. -/
theorem joined_overwrites_buffer_counterexample :
    (handleJoined
        { initialState with pendingExistingProducers :=
            [{ participantId := "A", producerId := "p1", kind := "video" }] }
        (some [{ participantId := "B", producerId := "p2", kind := "audio" }])
      ).1.pendingExistingProducers
      = [{ participantId := "B", producerId := "p2", kind := "audio" }] ∧
    ([{ participantId := "B", producerId := "p2", kind := "audio" }] :
        List PendingProducer)
      ≠ [{ participantId := "A", producerId := "p1", kind := "video" },
         { participantId := "B", producerId := "p2", kind := "audio" }] := by
  exact ⟨rfl, by decide⟩

/-- C9 (amended): a joined message carrying a non-empty existing-producers
list REPLACES the pending buffer with that list (preserving the order
inside the message); it does not append, so only the most recent
announcement list is retained.  An absent or empty list leaves the buffer
unchanged, nothing else in the state is modified, no notification beyond
the joined event itself is emitted, and no capability-readiness check is
performed (the handler behaves identically whatever the device field
holds). -/
theorem joined_announcement_replaces_buffer (s : ClientState)
    (ps : List PendingProducer) :
    (handleJoined s (some ps)).1.pendingExistingProducers
        = (if ps.length > 0 then ps else s.pendingExistingProducers) ∧
    (handleJoined s (some ps)).1.device = s.device ∧
    (handleJoined s (some ps)).1.consumerTransports = s.consumerTransports ∧
    (handleJoined s (some ps)).2 = [Emitted.joined] ∧
    (handleJoined s none).1 = s ∧
    (handleJoined s none).2 = [Emitted.joined] := by
  by_cases h : ps.length > 0 <;> simp [handleJoined, h]

/-! ### Claim C3: fail-fast before capability readiness -/

/-- C3 (counterexample): the claim says consumeTrack surfaces a
caller-visible "Device not initialized" error while not Ready, and that
the guard covers the whole window until the engine load completes.  At the
initial state (no device), the internal negotiation does reject with that
error, but the queue's catch resolves the call to null, so the caller sees
Except.ok none rather than the error; and in the state where the
rtpCapabilities message has arrived but the load has not completed, the
device field is already set, so produceTrack proceeds instead of failing
fast. -/
theorem notReady_error_swallowed_counterexample :
    (_consumeTrack initialState "A" "p"
        { newTransport := { tid := 0, closed := false }, consumedId := "c0",
          engineConsume := Except.ok 5 }).2.2
      = Except.error "Device not initialized" ∧
    (consumeTrack initialState "A" "p"
        { newTransport := { tid := 0, closed := false }, consumedId := "c0",
          engineConsume := Except.ok 5 }).2.2
      = Except.ok none ∧
    (produceTrack (rtpCapabilitiesReceived initialState)
        { newTransport := { tid := 1, closed := false },
          producerId := "x" }).2.2
      = Except.ok { tid := 1, closed := false } := by
  exact ⟨rfl, rfl, rfl⟩

/-- C3 (amended): while the device field is unset (the server's capability
announcement has not yet arrived), produceTrack rejects with "Device not
initialized" and the internal consume negotiation fails fast with the same
error, but consumeTrack itself resolves to null ("no track") because the
queue's catch swallows the rejection, so the error is not caller-visible
for consume.  Once the announcement arrives the device field is set before
the engine load completes, so no "Device not initialized" failure occurs
from then on, even while loading. -/
theorem notReady_gating_amended (s : ClientState) (penv : ProduceEnv)
    (ppid pid : String) (env : ConsumeEnv) :
    (s.device = none →
      (produceTrack s penv).2.2 = Except.error "Device not initialized" ∧
      (_consumeTrack s ppid pid env).2.2
          = Except.error "Device not initialized" ∧
      (consumeTrack s ppid pid env).2.2 = Except.ok none) ∧
    (∀ d, s.device = some d →
      ∃ tr, (produceTrack s penv).2.2 = Except.ok tr) := by
  constructor
  · intro h
    refine ⟨?_, ?_, ?_⟩
    · simp [produceTrack, h]
    · simp [_consumeTrack, h]
    · simp [consumeTrack, _consumeTrack, h]
  · intro d hd
    cases hpt : s.producerTransport with
    | none => exact ⟨penv.newTransport, by simp [produceTrack, hd, hpt]⟩
    | some tr => exact ⟨tr, by simp [produceTrack, hd, hpt]⟩

/-- Closed instance of notReady_gating_amended at the initial state. -/
theorem notReady_gating_amended_witness :
    (produceTrack initialState
        { newTransport := { tid := 1, closed := false },
          producerId := "x" }).2.2
      = Except.error "Device not initialized" ∧
    (_consumeTrack initialState "A" "p"
        { newTransport := { tid := 0, closed := false }, consumedId := "c0",
          engineConsume := Except.ok 5 }).2.2
      = Except.error "Device not initialized" ∧
    (consumeTrack initialState "A" "p"
        { newTransport := { tid := 0, closed := false }, consumedId := "c0",
          engineConsume := Except.ok 5 }).2.2
      = Except.ok none :=
  (notReady_gating_amended initialState
    { newTransport := { tid := 1, closed := false }, producerId := "x" }
    "A" "p"
    { newTransport := { tid := 0, closed := false }, consumedId := "c0",
      engineConsume := Except.ok 5 }).1 rfl

/-! ### Claim C6: consumeTrack never rejects and the queue advances -/

/-- C6: consumeTrack always resolves (its result is an Except.ok, never an
error); whenever the internal negotiation rejects, the caller receives
null; an engine-consume failure after the consumed confirmation likewise
yields null; and the serialization queue produces one result per queued
call — a failing entry does not stop the later entries from running. -/
theorem consumeTrack_never_rejects (s : ClientState) (ppid pid : String)
    (env : ConsumeEnv) (reqs : List ConsumeReq) :
    (∃ t, (consumeTrack s ppid pid env).2.2 = Except.ok t) ∧
    (∀ e, (_consumeTrack s ppid pid env).2.2 = Except.error e →
      (consumeTrack s ppid pid env).2.2 = Except.ok none) ∧
    (∀ d e, s.device = some d → env.engineConsume = Except.error e →
      (consumeTrack s ppid pid env).2.2 = Except.ok none) ∧
    (runConsumeQueue s reqs).2.length = reqs.length := by
  refine ⟨?_, ?_, ?_, ?_⟩
  · rcases h : _consumeTrack s ppid pid env with ⟨s1, msgs, r⟩
    cases r with
    | error e => exact ⟨none, by simp [consumeTrack, h]⟩
    | ok t => exact ⟨t, by simp [consumeTrack, h]⟩
  · intro e he
    rcases h : _consumeTrack s ppid pid env with ⟨s1, msgs, r⟩
    rw [h] at he
    simp only at he
    subst he
    simp [consumeTrack, h]
  · intro d e hd he
    rcases hlk : assocGet s.consumerTransports ppid with _ | tr <;>
      simp [consumeTrack, _consumeTrack, hd, hlk, he]
  · induction reqs generalizing s with
    | nil => simp [runConsumeQueue]
    | cons r rest ih => simp [runConsumeQueue, ih]

/-- Closed instance of consumeTrack_never_rejects: a queue of two calls,
the first failing in the engine, still yields a result per call, with the
failing call resolved to null. -/
theorem consumeTrack_never_rejects_witness :
    (consumeTrack { initialState with device := some DeviceState.loaded }
        "A" "p"
        { newTransport := { tid := 0, closed := false }, consumedId := "c0",
          engineConsume := Except.error "boom" }).2.2
      = Except.ok none ∧
    (runConsumeQueue { initialState with device := some DeviceState.loaded }
        [{ producerParticipantId := "A", producerId := "p",
           env := { newTransport := { tid := 0, closed := false },
                    consumedId := "c0",
                    engineConsume := Except.error "boom" } },
         { producerParticipantId := "B", producerId := "q",
           env := { newTransport := { tid := 1, closed := false },
                    consumedId := "c1",
                    engineConsume := Except.ok 7 } }]).2.length = 2 := by
  constructor
  · exact (consumeTrack_never_rejects
      { initialState with device := some DeviceState.loaded } "A" "p"
      { newTransport := { tid := 0, closed := false }, consumedId := "c0",
        engineConsume := Except.error "boom" } []).2.2.1
      DeviceState.loaded "boom" rfl rfl
  · exact (consumeTrack_never_rejects
      { initialState with device := some DeviceState.loaded } "A" "p"
      { newTransport := { tid := 0, closed := false }, consumedId := "c0",
        engineConsume := Except.error "boom" }
      [{ producerParticipantId := "A", producerId := "p",
         env := { newTransport := { tid := 0, closed := false },
                  consumedId := "c0",
                  engineConsume := Except.error "boom" } },
       { producerParticipantId := "B", producerId := "q",
         env := { newTransport := { tid := 1, closed := false },
                  consumedId := "c1",
                  engineConsume := Except.ok 7 } }]).2.2.2

/-! ### Claim C10: disconnect leaves device and producer transport set -/

/-- C10: disconnect leaves the device field and the producerTransport
field set (the latter now referencing the closed transport); a subsequent
produceTrack therefore does not reject with "Device not initialized",
sends no createProducerTransport request, and runs its produce on the
already-closed transport. -/
theorem disconnect_keeps_device_and_producer_transport (s : ClientState)
    (tr : Transport) (env : ProduceEnv)
    (hd : s.device.isSome) (hpt : s.producerTransport = some tr) :
    (disconnect s).1.device = s.device ∧
    (disconnect s).1.producerTransport = some { tr with closed := true } ∧
    (produceTrack (disconnect s).1 env).2.1 = [] ∧
    (produceTrack (disconnect s).1 env).2.2
        = Except.ok { tr with closed := true } := by
  rcases hdev : s.device with _ | d
  · rw [hdev] at hd
    simp at hd
  · refine ⟨by simp [disconnect, hdev], by simp [disconnect, hpt], ?_, ?_⟩ <;>
      simp [disconnect, produceTrack, hdev, hpt]

/-- Closed instance of disconnect_keeps_device_and_producer_transport. -/
theorem disconnect_keeps_device_witness :
    (disconnect c10State).1.device = some DeviceState.loaded ∧
    (produceTrack (disconnect c10State).1
        { newTransport := { tid := 9, closed := false },
          producerId := "x" }).2.2
      = Except.ok { tid := 3, closed := true } := by
  have h := disconnect_keeps_device_and_producer_transport
    c10State { tid := 3, closed := false }
    { newTransport := { tid := 9, closed := false }, producerId := "x" }
    (by decide) rfl
  exact ⟨h.1, h.2.2.2⟩

/-! ### Claim C7: disconnect closes everything, in order, exactly once -/

theorem producerClose_injective : Function.Injective CloseEv.producerClose := by
  intro a b h
  simpa using h

theorem consumerClose_injective : Function.Injective CloseEv.consumerClose := by
  intro a b h
  simpa using h

/-- C7: the close calls issued by disconnect are exactly: every registered
producer, then every registered consumer, then the producer transport (if
any), then every consumer transport, then the socket; each registered
producer and consumer is closed exactly once; the three collections are
empty afterwards; and a second disconnect call operates on the emptied
collections, issuing no producer, consumer, or consumer-transport close at
all. -/
theorem disconnect_closes_all_in_order (s : ClientState)
    (hnp : (s.producers.map Prod.fst).Nodup)
    (hnc : (s.consumers.map Prod.fst).Nodup) :
    (disconnect s).2
      = s.producers.map (fun e => CloseEv.producerClose e.1) ++
          s.consumers.map (fun e => CloseEv.consumerClose e.1) ++
          (match s.producerTransport with
            | some tr => [CloseEv.producerTransportClose tr.tid]
            | none => []) ++
          s.consumerTransports.map
            (fun e => CloseEv.consumerTransportClose e.2.tid) ++
          [CloseEv.wsClose] ∧
    (disconnect s).1.producers = [] ∧
    (disconnect s).1.consumers = [] ∧
    (disconnect s).1.consumerTransports = [] ∧
    (∀ id, id ∈ s.producers.map Prod.fst →
      (disconnect s).2.count (CloseEv.producerClose id) = 1) ∧
    (∀ id, id ∈ s.consumers.map Prod.fst →
      (disconnect s).2.count (CloseEv.consumerClose id) = 1) ∧
    (∀ e, e ∈ (disconnect (disconnect s).1).2 →
      (∃ t, e = CloseEv.producerTransportClose t) ∨ e = CloseEv.wsClose) := by
  refine ⟨rfl, rfl, rfl, rfl, ?_, ?_, ?_⟩
  · intro id hid
    have h1 : (s.producers.map
        (fun e => CloseEv.producerClose e.1)).count
          (CloseEv.producerClose id) = 1 := by
      rw [show (fun (e : String × Producer) => CloseEv.producerClose e.1)
          = CloseEv.producerClose ∘ Prod.fst from rfl, ← List.map_map,
        List.count_map_of_injective _ _ producerClose_injective]
      exact List.count_eq_one_of_mem hnp hid
    have hz1 : (s.consumers.map
        (fun e => CloseEv.consumerClose e.1)).count
          (CloseEv.producerClose id) = 0 := by
      rw [List.count_eq_zero]
      simp
    have hz2 : (s.consumerTransports.map
        (fun e => CloseEv.consumerTransportClose e.2.tid)).count
          (CloseEv.producerClose id) = 0 := by
      rw [List.count_eq_zero]
      simp
    rcases hpt : s.producerTransport with _ | tr <;>
      simp [disconnect, List.count_append, h1, hz1, hz2, hpt]
  · intro id hid
    have h1 : (s.consumers.map
        (fun e => CloseEv.consumerClose e.1)).count
          (CloseEv.consumerClose id) = 1 := by
      rw [show (fun (e : String × Consumer) => CloseEv.consumerClose e.1)
          = CloseEv.consumerClose ∘ Prod.fst from rfl, ← List.map_map,
        List.count_map_of_injective _ _ consumerClose_injective]
      exact List.count_eq_one_of_mem hnc hid
    have hz1 : (s.producers.map
        (fun e => CloseEv.producerClose e.1)).count
          (CloseEv.consumerClose id) = 0 := by
      rw [List.count_eq_zero]
      simp
    have hz2 : (s.consumerTransports.map
        (fun e => CloseEv.consumerTransportClose e.2.tid)).count
          (CloseEv.consumerClose id) = 0 := by
      rw [List.count_eq_zero]
      simp
    rcases hpt : s.producerTransport with _ | tr <;>
      simp [disconnect, List.count_append, h1, hz1, hz2, hpt]
  · intro e he
    rcases hpt : s.producerTransport with _ | tr
    · simp [disconnect, hpt] at he
      exact Or.inr he
    · simp [disconnect, hpt] at he
      rcases he with rfl | rfl
      · exact Or.inl ⟨tr.tid, rfl⟩
      · exact Or.inr rfl

/-- Closed instance of disconnect_closes_all_in_order. -/
theorem disconnect_closes_all_witness :
    (disconnect c5State).2
      = [CloseEv.consumerClose "c1", CloseEv.consumerClose "c2",
         CloseEv.consumerTransportClose 1, CloseEv.wsClose] ∧
    (disconnect c5State).2.count (CloseEv.consumerClose "c1") = 1 := by
  have h := disconnect_closes_all_in_order c5State (by decide) (by decide)
  exact ⟨by rw [h.1]; rfl, h.2.2.2.2.2.1 "c1" (by decide)⟩

/-! ### Claim C5: participantLeft teardown -/

theorem assocGet_closeConsumersOf (m : List (String × Consumer))
    (key cid : String) :
    assocGet (closeConsumersOf m key) cid
      = (assocGet m cid).map
          (fun c => if c.transportKey = key then { c with closed := true }
            else c) := by
  induction m with
  | nil => rfl
  | cons e t ih =>
    obtain ⟨k2, c⟩ := e
    simp only [closeConsumersOf] at ih ⊢
    by_cases h2 : c.transportKey = key <;> by_cases h : k2 = cid <;>
      simp [assocGet, h, h2, ih]

/-- C5 (counterexample): the claim says the departed participant's
Consumers are removed from the consumer-id map.  On a client holding a
transport for "A" with two registered Consumers, handleParticipantLeft
leaves both entries in the consumers map (closed by the transport
teardown, but still registered). -/
theorem participantLeft_keeps_consumer_entries_counterexample :
    (handleParticipantLeft c5State "A").1.consumers
      = [("c1", { consId := "c1", transportKey := "A", closed := true,
                  track := 10 }),
         ("c2", { consId := "c2", transportKey := "A", closed := true,
                  track := 11 })] ∧
    (handleParticipantLeft c5State "A").1.consumers ≠ [] := by
  exact ⟨rfl, by decide⟩

/-- C5 (amended): on participantLeft for a participant with an active
consumer transport, the transport is closed and removed from the
participant-to-transport map and the departure is announced, and a
subsequent consume call for that participant creates and stores a fresh
transport; the transport's Consumers are closed by the engine-level
transport teardown but are NOT removed from the consumer-id map — their
entries remain registered (until disconnect clears the map). -/
theorem participantLeft_teardown_amended (s : ClientState)
    (pid pid2 : String) (tr : Transport) (d : DeviceState) (env : ConsumeEnv)
    (hnd : (s.consumerTransports.map Prod.fst).Nodup)
    (h : assocGet s.consumerTransports pid = some tr)
    (hdev : s.device = some d) :
    assocGet (handleParticipantLeft s pid).1.consumerTransports pid
        = none ∧
    (handleParticipantLeft s pid).2 = [Emitted.participantLeft pid] ∧
    (∀ cid c, assocGet s.consumers cid = some c →
      assocGet (handleParticipantLeft s pid).1.consumers cid
        = some (if c.transportKey = pid then { c with closed := true }
            else c)) ∧
    OutMsg.createConsumerTransport
        ∈ (_consumeTrack (handleParticipantLeft s pid).1 pid pid2 env).2.1 ∧
    assocGet (_consumeTrack (handleParticipantLeft s pid).1 pid pid2
        env).1.consumerTransports pid
      = some env.newTransport := by
  have hdel : assocGet (assocDelete s.consumerTransports pid) pid = none :=
    assocGet_assocDelete_self _ _ hnd
  refine ⟨?_, ?_, ?_, ?_, ?_⟩
  · simp [handleParticipantLeft, h, hdel]
  · simp [handleParticipantLeft, h]
  · intro cid c hc
    simp [handleParticipantLeft, h, assocGet_closeConsumersOf, hc]
  · rcases henv : env.engineConsume with e | track <;>
      simp [handleParticipantLeft, h, _consumeTrack, hdev, hdel, henv]
  · rcases henv : env.engineConsume with e | track <;>
      simp [handleParticipantLeft, h, _consumeTrack, hdev, hdel, henv,
        assocGet_assocSet_self]

/-- Closed instance of participantLeft_teardown_amended. -/
theorem participantLeft_teardown_witness :
    assocGet (handleParticipantLeft c5State "A").1.consumerTransports "A"
        = none ∧
    assocGet (_consumeTrack (handleParticipantLeft c5State "A").1 "A" "p"
        { newTransport := { tid := 7, closed := false }, consumedId := "c9",
          engineConsume := Except.ok 3 }).1.consumerTransports "A"
      = some { tid := 7, closed := false } := by
  have h := participantLeft_teardown_amended c5State "A" "p"
    { tid := 1, closed := false } DeviceState.loaded
    { newTransport := { tid := 7, closed := false }, consumedId := "c9",
      engineConsume := Except.ok 3 }
    (by decide) rfl rfl
  exact ⟨h.1, h.2.2.2.2⟩

/-! ### Claim C4: one consumer transport per participant, memoized -/

theorem consumeTrack_fst (s : ClientState) (ppid pid : String)
    (env : ConsumeEnv) :
    (consumeTrack s ppid pid env).1 = (_consumeTrack s ppid pid env).1 := by
  rcases h : _consumeTrack s ppid pid env with ⟨s1, msgs, r⟩
  cases r <;> simp [consumeTrack, h]

theorem _consumeTrack_transports (s : ClientState) (ppid pid : String)
    (env : ConsumeEnv) :
    (_consumeTrack s ppid pid env).1.consumerTransports
        = s.consumerTransports ∨
    (_consumeTrack s ppid pid env).1.consumerTransports
        = assocSet s.consumerTransports ppid env.newTransport := by
  rcases hd : s.device with _ | d
  · exact Or.inl (by simp [_consumeTrack, hd])
  · rcases hlk : assocGet s.consumerTransports ppid with _ | tr
    · rcases henv : env.engineConsume with e | track
      · exact Or.inr (by simp [_consumeTrack, hd, hlk, henv])
      · exact Or.inr (by simp [_consumeTrack, hd, hlk, henv])
    · rcases henv : env.engineConsume with e | track
      · exact Or.inl (by simp [_consumeTrack, hd, hlk, henv])
      · exact Or.inl (by simp [_consumeTrack, hd, hlk, henv])

theorem runOp_preserves_nodup_keys (s : ClientState) (op : ClientOp)
    (h : (s.consumerTransports.map Prod.fst).Nodup) :
    ((runOp s op).consumerTransports.map Prod.fst).Nodup := by
  cases op with
  | joined ps =>
    rcases ps with _ | ps
    · simpa [runOp, handleJoined] using h
    · by_cases hl : ps.length > 0 <;> simp [runOp, handleJoined, hl, h]
  | rtpCapabilities =>
    by_cases hl : s.pendingExistingProducers.length > 0 <;>
      simp [runOp, handleRtpCapabilities, deviceLoadCompleted,
        rtpCapabilitiesReceived, hl, h]
  | produce env =>
    rcases hd : s.device with _ | d
    · simpa [runOp, produceTrack, hd] using h
    · rcases hpt : s.producerTransport with _ | tr <;>
        simp [runOp, produceTrack, hd, hpt, h]
  | consume ppid pid env =>
    rw [runOp, consumeTrack_fst]
    rcases _consumeTrack_transports s ppid pid env with h2 | h2 <;> rw [h2]
    · exact h
    · exact nodupKeys_assocSet _ _ _ h
  | participantLeft pid =>
    rcases hlk : assocGet s.consumerTransports pid with _ | tr <;>
      simp [runOp, handleParticipantLeft, hlk, h, nodupKeys_assocDelete]
  | disconnectOp => simp [runOp, disconnect]

theorem runOps_preserves_nodup_keys (ops : List ClientOp) (s : ClientState)
    (h : (s.consumerTransports.map Prod.fst).Nodup) :
    ((runOps s ops).consumerTransports.map Prod.fst).Nodup := by
  induction ops generalizing s with
  | nil => simpa [runOps] using h
  | cons op rest ih =>
    rw [runOps]
    exact ih _ (runOp_preserves_nodup_keys s op h)

/-- C4: over every operation history from construction, the consumer
transport map holds at most one transport per participant id (its keys
stay duplicate-free); when a transport for the participant is already
stored, the consume negotiation sends no createConsumerTransport request
and leaves the transport map unchanged (it reuses the stored transport);
and when no transport is stored and the device is ready, exactly one
createConsumerTransport request is sent and the fresh transport is stored
under the participant id. -/
theorem consumer_transport_memoized (ops : List ClientOp) (s : ClientState)
    (ppid pid : String) (env : ConsumeEnv) (tr : Transport)
    (d : DeviceState) :
    ((runOps initialState ops).consumerTransports.map Prod.fst).Nodup ∧
    (assocGet s.consumerTransports ppid = some tr →
      (_consumeTrack s ppid pid env).2.1.count
          OutMsg.createConsumerTransport = 0 ∧
      (_consumeTrack s ppid pid env).1.consumerTransports
          = s.consumerTransports) ∧
    (s.device = some d → assocGet s.consumerTransports ppid = none →
      (_consumeTrack s ppid pid env).2.1.count
          OutMsg.createConsumerTransport = 1 ∧
      assocGet (_consumeTrack s ppid pid env).1.consumerTransports ppid
          = some env.newTransport) := by
  refine ⟨runOps_preserves_nodup_keys ops initialState (by simp [initialState]),
    ?_, ?_⟩
  · intro hlk
    rcases hd : s.device with _ | d2
    · simp [_consumeTrack, hd]
    · rcases henv : env.engineConsume with e | track <;>
        simp [_consumeTrack, hd, hlk, henv]
  · intro hd hlk
    rcases henv : env.engineConsume with e | track <;>
      simp [_consumeTrack, hd, hlk, henv, assocGet_assocSet_self]

/-- Closed instance of consumer_transport_memoized: a second consume for
"A" reuses the stored transport, and a first consume for "B" creates one. -/
theorem consumer_transport_memoized_witness :
    ((runOps initialState [ClientOp.rtpCapabilities]).consumerTransports.map
        Prod.fst).Nodup ∧
    (_consumeTrack c5State "A" "p"
        { newTransport := { tid := 8, closed := false }, consumedId := "c8",
          engineConsume := Except.ok 2 }).2.1.count
        OutMsg.createConsumerTransport = 0 ∧
    (_consumeTrack c5State "B" "q"
        { newTransport := { tid := 8, closed := false }, consumedId := "c8",
          engineConsume := Except.ok 2 }).2.1.count
        OutMsg.createConsumerTransport = 1 := by
  refine ⟨(consumer_transport_memoized [ClientOp.rtpCapabilities] c5State
      "A" "p"
      { newTransport := { tid := 8, closed := false }, consumedId := "c8",
        engineConsume := Except.ok 2 }
      { tid := 1, closed := false } DeviceState.loaded).1,
    ((consumer_transport_memoized [ClientOp.rtpCapabilities] c5State "A" "p"
      { newTransport := { tid := 8, closed := false }, consumedId := "c8",
        engineConsume := Except.ok 2 }
      { tid := 1, closed := false } DeviceState.loaded).2.1 rfl).1,
    ((consumer_transport_memoized [ClientOp.rtpCapabilities] c5State "B" "q"
      { newTransport := { tid := 8, closed := false }, consumedId := "c8",
        engineConsume := Except.ok 2 }
      { tid := 1, closed := false } DeviceState.loaded).2.2 rfl rfl).1⟩

/-! ### Claim C1: global FIFO serialization of consume negotiations -/

theorem consume_queue_invariant (s : QState) (hr : QReach s) :
    s.inflight.length ≤ 1 ∧
    s.done.map Prod.fst ++ s.inflight ++ s.queued = List.range s.nextId := by
  induction hr with
  | init => simp [QState.init]
  | step hr0 hstep ih =>
    cases hstep with
    | call =>
      refine ⟨by simpa using ih.1, ?_⟩
      simp only [List.range_succ, ← ih.2]
      simp [List.append_assoc]
    | start id rest hIdle hQ =>
      refine ⟨by simp, ?_⟩
      have h2 := ih.2
      rw [hIdle, hQ] at h2
      simpa [List.append_assoc] using h2
    | settle id ok hIn =>
      refine ⟨by simp, ?_⟩
      have h2 := ih.2
      rw [hIn] at h2
      simpa [List.append_assoc] using h2

/-- C1: in every reachable state of the consume queue, at most one consume
negotiation is outstanding; the settled ids, the inflight id, and the
queued ids laid end to end are exactly the call ids in call order — a
single FIFO across all participants, so negotiations start and complete
in call order; and whenever the chain is idle with calls still queued (in
particular right after a settle with ok = false, i.e. a failed call), the
start step for the oldest queued call is enabled — a failure does not
prevent the next queued call from executing. -/
theorem consume_queue_serialized (s : QState) (hr : QReach s) :
    s.inflight.length ≤ 1 ∧
    s.done.map Prod.fst ++ s.inflight ++ s.queued = List.range s.nextId ∧
    (∀ id rest, s.inflight = [] → s.queued = id :: rest →
      QStep s (QEvent.start id)
        { s with queued := rest, inflight := [id] }) ∧
    (∀ id ok, s.inflight = [id] →
      QStep s (QEvent.settle id ok)
        { s with inflight := [], done := s.done ++ [(id, ok)] }) := by
  obtain ⟨h1, h2⟩ := consume_queue_invariant s hr
  exact ⟨h1, h2,
    fun id rest hIdle hQ => QStep.start s id rest hIdle hQ,
    fun id ok hIn => QStep.settle s id ok hIn⟩

/-- Closed instance of consume_queue_serialized, at the reachable state in
which call 0 has settled as a failure while call 1 is still queued: the
outstanding bound holds, the ids line up in call order, and the start of
call 1 is enabled despite call 0 having failed. -/
theorem consume_queue_serialized_witness :
    ({ queued := [1], inflight := [], done := [(0, false)],
        nextId := 2 } : QState).inflight.length ≤ 1 ∧
    (({ queued := [1], inflight := [], done := [(0, false)],
        nextId := 2 } : QState).done.map Prod.fst ++ [] ++ [1]
      = List.range 2) ∧
    QStep { queued := [1], inflight := [], done := [(0, false)], nextId := 2 }
      (QEvent.start 1)
      { queued := [], inflight := [1], done := [(0, false)], nextId := 2 } := by
  have hreach :
      QReach { queued := [1], inflight := [], done := [(0, false)],
               nextId := 2 } := by
    have h1 :
        QReach { queued := [0], inflight := [], done := [],
                 nextId := 1 } :=
      QReach.step QReach.init (QStep.call QState.init)
    have h2 :
        QReach { queued := [0, 1], inflight := [], done := [],
                 nextId := 2 } :=
      QReach.step h1 (QStep.call _)
    have h3 :
        QReach { queued := [1], inflight := [0], done := [],
                 nextId := 2 } :=
      QReach.step h2 (QStep.start _ 0 [1] rfl rfl)
    exact QReach.step h3 (QStep.settle _ 0 false rfl)
  have h := consume_queue_serialized _ hreach
  exact ⟨h.1, h.2.1, h.2.2.1 1 [] rfl rfl⟩

/-! ### Claim C8: event bus semantics -/

theorem emitLoopAux_past (gas : Nat) : ∀ (k : Nat) (hs : HandlerList),
    hs.length ≤ k → emitLoopAux hs k gas = (hs, []) := by
  induction gas with
  | zero => intro k hs h; rfl
  | succ g ih =>
    intro k hs h
    have hget : hs[k]? = none := List.getElem?_eq_none h
    simp only [emitLoopAux, hget]
    exact ih (k + 1) hs (le_trans h (Nat.le_succ k))

theorem removeFirstHandler_append_of_not_mem (front : HandlerList)
    (h : Handler) (t : HandlerList)
    (hfr : h.hid ∉ front.map Handler.hid) :
    removeFirstHandler (front ++ h :: t) h.hid = front ++ t := by
  induction front with
  | nil => simp [removeFirstHandler]
  | cons f fr ih =>
    simp only [List.map_cons, List.mem_cons] at hfr
    push_neg at hfr
    have hne : ¬f.hid = h.hid := fun he => hfr.1 he.symm
    simp [removeFirstHandler, hne, ih hfr.2]

theorem emitSpecAux_cons_not_sr (h : Handler) (t : HandlerList)
    (hsr : ¬h.selfRemoving = true) :
    emitSpecAux (h :: t)
      = (h :: (emitSpecAux t).1, h :: (emitSpecAux t).2) := by
  cases t <;> simp [emitSpecAux, hsr]

theorem emitLoopAux_spec (gas : Nat) : ∀ (rest front : HandlerList),
    ((front ++ rest).map Handler.hid).Nodup → rest.length ≤ gas →
    emitLoopAux (front ++ rest) front.length gas
      = (front ++ (emitSpecAux rest).1, (emitSpecAux rest).2) := by
  induction gas with
  | zero =>
    intro rest front hnd hlen
    have hr : rest = [] := List.length_eq_zero.mp (Nat.le_zero.mp hlen)
    subst hr
    simp [emitLoopAux, emitSpecAux]
  | succ g ih =>
    intro rest front hnd hlen
    rcases rest with _ | ⟨h, t⟩
    · rw [List.append_nil, emitLoopAux_past (g + 1) front.length front
        (le_refl _)]
      simp [emitSpecAux]
    · have hget : (front ++ h :: t)[front.length]? = some h := by
        rw [List.getElem?_append_right (le_refl _)]
        simp
      by_cases hsr : h.selfRemoving = true
      · have hnotin : h.hid ∉ front.map Handler.hid := by
          intro hmem
          rw [List.map_append] at hnd
          rcases List.nodup_append.mp hnd with ⟨_, _, hdisj⟩
          exact hdisj hmem (by simp)
        have hrem : removeFirstHandler (front ++ h :: t) h.hid = front ++ t :=
          removeFirstHandler_append_of_not_mem front h t hnotin
        rcases t with _ | ⟨h2, t2⟩
        · simp only [emitLoopAux, hget, if_pos hsr, hrem]
          rw [List.append_nil, emitLoopAux_past g (front.length + 1) front
            (Nat.le_succ _)]
          simp [emitSpecAux, hsr]
        · have hnd2 : (((front ++ [h2]) ++ t2).map Handler.hid).Nodup := by
            have hsub : List.Sublist ((front ++ [h2]) ++ t2)
                (front ++ h :: h2 :: t2) := by
              simp only [List.append_assoc, List.singleton_append]
              exact (List.sublist_cons_self h (h2 :: t2)).append_left front
            exact (hsub.map Handler.hid).nodup hnd
          have hlen2 : t2.length ≤ g := by
            simp only [List.length_cons] at hlen
            omega
          have heq := ih t2 (front ++ [h2]) hnd2 hlen2
          simp only [emitLoopAux, hget, if_pos hsr, hrem]
          have harr : front ++ h2 :: t2 = (front ++ [h2]) ++ t2 := by simp
          have hk : front.length + 1 = (front ++ [h2]).length := by simp
          rw [harr, hk, heq]
          simp [emitSpecAux, hsr]
      · have harr : front ++ h :: t = (front ++ [h]) ++ t := by simp
        have hnd2 : (((front ++ [h]) ++ t).map Handler.hid).Nodup := by
          rw [← harr]
          exact hnd
        have hlen2 : t.length ≤ g := by
          simp only [List.length_cons] at hlen
          omega
        have heq := ih t (front ++ [h]) hnd2 hlen2
        simp only [emitLoopAux, hget, if_neg hsr]
        have hk : front.length + 1 = (front ++ [h]).length := by simp
        rw [harr, hk, heq]
        simp [emitSpecAux_cons_not_sr h t hsr]

theorem emitSpecAux_no_self_removing (hs : HandlerList)
    (h : ∀ x ∈ hs, x.selfRemoving = false) : emitSpecAux hs = (hs, hs) := by
  induction hs with
  | nil => rfl
  | cons hd t ih =>
    have hhd : hd.selfRemoving = false := h hd (by simp)
    have ht := ih (fun x hx => h x (by simp [hx]))
    rw [emitSpecAux_cons_not_sr hd t (by simp [hhd]), ht]

theorem emitSpecAux_subsets (hs : HandlerList) :
    (∀ x ∈ (emitSpecAux hs).1, x ∈ hs) ∧
    (∀ x ∈ (emitSpecAux hs).2, x ∈ hs) := by
  induction hs using emitSpecAux.induct with
  | case1 => simp [emitSpecAux]
  | case2 h hsr => simp [emitSpecAux, hsr]
  | case3 h hsr h2 t2 ih =>
    simp only [emitSpecAux, if_pos hsr, List.mem_cons]
    constructor
    · intro x hx
      rcases hx with rfl | hx
      · simp
      · exact Or.inr (Or.inr (ih.1 x hx))
    · intro x hx
      rcases hx with rfl | hx
      · simp
      · exact Or.inr (Or.inr (ih.2 x hx))
  | case4 h t hsr ih =>
    simp only [emitSpecAux_cons_not_sr h t hsr, List.mem_cons]
    constructor
    · intro x hx
      rcases hx with rfl | hx
      · simp
      · exact Or.inr (ih.1 x hx)
    · intro x hx
      rcases hx with rfl | hx
      · simp
      · exact Or.inr (ih.2 x hx)

theorem emitSpecAux_fired_removed (hs : HandlerList) :
    (hs.map Handler.hid).Nodup →
    ∀ x ∈ (emitSpecAux hs).2, x.selfRemoving = true →
      x.hid ∉ (emitSpecAux hs).1.map Handler.hid := by
  induction hs using emitSpecAux.induct with
  | case1 => simp [emitSpecAux]
  | case2 h hsr => simp [emitSpecAux, hsr]
  | case3 h hsr h2 t2 ih =>
    intro hnd
    rw [List.map_cons, List.map_cons] at hnd
    obtain ⟨hA0, hrest⟩ := List.nodup_cons.mp hnd
    obtain ⟨hB0, hC⟩ := List.nodup_cons.mp hrest
    have hA : ¬h.hid = h2.hid ∧ h.hid ∉ t2.map Handler.hid := by
      simp only [List.mem_cons] at hA0
      push_neg at hA0
      exact hA0
    intro x hx hxsr
    simp only [emitSpecAux, if_pos hsr, List.mem_cons] at hx ⊢
    simp only [List.map_cons, List.mem_cons]
    push_neg
    rcases hx with rfl | hx
    · refine ⟨hA.1, fun hmem => ?_⟩
      rcases List.mem_map.mp hmem with ⟨y, hy, hyx⟩
      exact hA.2 (List.mem_map.mpr
        ⟨y, (emitSpecAux_subsets t2).1 y hy, hyx⟩)
    · have hxnot := ih hC x hx hxsr
      refine ⟨fun he => ?_, fun hmem => hxnot hmem⟩
      exact hB0 (he ▸ List.mem_map.mpr
        ⟨x, (emitSpecAux_subsets t2).2 x hx, rfl⟩)
  | case4 h t hsr ih =>
    intro hnd
    rw [List.map_cons] at hnd
    obtain ⟨hD1, hD2⟩ := List.nodup_cons.mp hnd
    intro x hx hxsr
    simp only [emitSpecAux_cons_not_sr h t hsr, List.mem_cons] at hx ⊢
    simp only [List.map_cons, List.mem_cons]
    push_neg
    rcases hx with rfl | hx
    · exact absurd hxsr hsr
    · have hxnot := ih hD2 x hx hxsr
      refine ⟨fun he => ?_, fun hmem => hxnot hmem⟩
      exact hD1 (he ▸ List.mem_map.mpr
        ⟨x, (emitSpecAux_subsets t).2 x hx, rfl⟩)

/-- C8 (counterexample): the claim says a handler that unsubscribes itself
during its own invocation does not prevent the remaining registered
handlers from being invoked.  With two once-wrappers registered for the
same type, emit's forEach visits index 0, the wrapper splices itself out,
the array shifts, and index 1 no longer holds the second wrapper: only the
first handler fires — and the unfired second wrapper even stays
registered. -/
theorem emit_skips_handler_after_self_removal_counterexample :
    (emit [("consumed", [{ hid := 1, selfRemoving := true },
                         { hid := 2, selfRemoving := true }])]
        "consumed").2
      = [{ hid := 1, selfRemoving := true }] ∧
    ({ hid := 2, selfRemoving := true } : Handler)
      ∉ (emit [("consumed", [{ hid := 1, selfRemoving := true },
                             { hid := 2, selfRemoving := true }])]
          "consumed").2 ∧
    assocGet (emit [("consumed", [{ hid := 1, selfRemoving := true },
                                  { hid := 2, selfRemoving := true }])]
        "consumed").1 "consumed"
      = some [{ hid := 2, selfRemoving := true }] := by
  exact ⟨rfl, by decide, rfl⟩

/-- C8 (amended): publishing an event touches only that event type's
handler list and delivers nothing to handlers of other types; when no
registered handler self-unsubscribes during the publication, all handlers
registered at the moment of publication are invoked, in registration
order, and stay registered; a self-removing handler (in particular a
once-wrapper) that fires is no longer registered afterwards; but a handler
that unsubscribes itself during its own invocation causes the handler
immediately following it in the list to be SKIPPED for that publication
(the skipped handler stays registered). -/
theorem emit_bus_semantics_amended (bus : Bus) (event event2 : String)
    (hs : HandlerList)
    (hlk : assocGet bus event = some hs)
    (hnd : (hs.map Handler.hid).Nodup) :
    (event2 ≠ event →
      assocGet (emit bus event).1 event2 = assocGet bus event2) ∧
    ((∀ x ∈ hs, x.selfRemoving = false) →
      (emit bus event).2 = hs ∧
      assocGet (emit bus event).1 event = some hs) ∧
    (∀ x ∈ (emit bus event).2, x.selfRemoving = true →
      ∀ hs2, assocGet (emit bus event).1 event = some hs2 →
        x.hid ∉ hs2.map Handler.hid) ∧
    (∀ h h2 t, hs = h :: h2 :: t → h.selfRemoving = true →
      (emit bus event).2 = h :: (emitSpecAux t).2 ∧
      h2.hid ∉ (emit bus event).2.map Handler.hid ∧
      assocGet (emit bus event).1 event = some (h2 :: (emitSpecAux t).1)) := by
  have hloop : emitLoopAux hs 0 hs.length
      = ((emitSpecAux hs).1, (emitSpecAux hs).2) := by
    have h := emitLoopAux_spec hs.length hs [] (by simpa using hnd)
      (le_refl _)
    simpa using h
  have hemit : emit bus event
      = (assocSet bus event (emitSpecAux hs).1, (emitSpecAux hs).2) := by
    simp [emit, hlk, hloop]
  refine ⟨?_, ?_, ?_, ?_⟩
  · intro hne
    rw [hemit]
    exact assocGet_assocSet_ne bus event event2 _ (fun he => hne he.symm)
  · intro hno
    rw [hemit, emitSpecAux_no_self_removing hs hno]
    exact ⟨rfl, assocGet_assocSet_self bus event hs⟩
  · intro x hx hxsr hs2 hlk2
    rw [hemit] at hx hlk2
    simp only at hx
    rw [show assocGet (assocSet bus event (emitSpecAux hs).1) event
        = some (emitSpecAux hs).1 from assocGet_assocSet_self _ _ _] at hlk2
    obtain rfl : (emitSpecAux hs).1 = hs2 := by
      injection hlk2
    exact emitSpecAux_fired_removed hs hnd x hx hxsr
  · intro h h2 t hhs hsr
    subst hhs
    have hspec : emitSpecAux (h :: h2 :: t)
        = (h2 :: (emitSpecAux t).1, h :: (emitSpecAux t).2) := by
      simp [emitSpecAux, hsr]
    rw [List.map_cons, List.map_cons] at hnd
    obtain ⟨hA0, hrest⟩ := List.nodup_cons.mp hnd
    obtain ⟨hB0, _⟩ := List.nodup_cons.mp hrest
    refine ⟨by rw [hemit, hspec], ?_, ?_⟩
    · rw [hemit, hspec]
      simp only [List.map_cons, List.mem_cons]
      push_neg
      constructor
      · intro he
        exact hA0 (by simp [he.symm])
      · intro hmem
        rcases List.mem_map.mp hmem with ⟨y, hy, hyx⟩
        exact hB0 (List.mem_map.mpr
          ⟨y, (emitSpecAux_subsets t).2 y hy, hyx⟩)
    · rw [hemit, hspec]
      exact assocGet_assocSet_self _ _ _

/-- Closed instance of emit_bus_semantics_amended on a bus with two
persistent handlers for "consumed" and a once-wrapper for "produced". -/
theorem emit_bus_semantics_witness :
    assocGet (emit c8Bus "consumed").1 "produced"
        = assocGet c8Bus "produced" ∧
    (emit c8Bus "consumed").2
        = [{ hid := 1, selfRemoving := false },
           { hid := 2, selfRemoving := false }] := by
  have h := emit_bus_semantics_amended c8Bus "consumed" "produced"
    [{ hid := 1, selfRemoving := false },
     { hid := 2, selfRemoving := false }] rfl (by decide)
  exact ⟨h.1 (by decide), (h.2.1 (by decide)).1⟩

end MS
